import Mathlib

/-!
Verification of the hagoth core: the term/unification/resolution engine
(`prolog.py`) and the variable-aware string pattern matcher (`testunify.py`).

Python objects are embedded as follows: `Predicate` and `Var` become the two
constructors of an inductive `Term`; the mutable `VarMap` becomes an
insertion-ordered association list threaded through the functions; in-place
mutation becomes explicit state passing; Python exceptions become `Except`
or `Option` results; the unbounded recursion of `unify`/`answer_iter`
(which can diverge in Python on cyclic inputs) is made total with a fuel
parameter, `none` standing for a run that does not terminate (or crashes).
-/

/-- A Python `Predicate` (name plus ordered argument list) or `Var` (name).
`Predicate.copy` in the source is a deep structural copy, which is the
identity on these immutable values. -/
inductive Term where
  | pred : String → List Term → Term
  | var : String → Term

mutual

/-- Structural equality test for terms (needed because automatic deriving
does not handle the nested `List Term`). -/
def Term.beq : Term → Term → Bool
  | .pred n1 args1, .pred n2 args2 => n1 == n2 && Term.beqList args1 args2
  | .var x, .var y => x == y
  | .pred _ _, .var _ => false
  | .var _, .pred _ _ => false

def Term.beqList : List Term → List Term → Bool
  | [], [] => true
  | _ :: _, [] => false
  | [], _ :: _ => false
  | a :: as_, b :: bs => Term.beq a b && Term.beqList as_ bs

end

mutual

theorem Term.beq_iff : ∀ a b : Term, Term.beq a b = true ↔ a = b
  | .pred n1 args1, .pred n2 args2 => by
    simp only [Term.beq, Bool.and_eq_true, beq_iff_eq, Term.beqList_iff args1 args2,
      Term.pred.injEq]
  | .var x, .var y => by simp only [Term.beq, beq_iff_eq, Term.var.injEq]
  | .pred _ _, .var _ => by simp only [Term.beq, Bool.false_eq_true, false_iff]; intro h; cases h
  | .var _, .pred _ _ => by simp only [Term.beq, Bool.false_eq_true, false_iff]; intro h; cases h

theorem Term.beqList_iff : ∀ as_ bs : List Term, Term.beqList as_ bs = true ↔ as_ = bs
  | [], [] => by simp [Term.beqList]
  | _ :: _, [] => by simp [Term.beqList]
  | [], _ :: _ => by simp [Term.beqList]
  | a :: as_, b :: bs => by
    simp only [Term.beqList, Bool.and_eq_true, Term.beq_iff a b, Term.beqList_iff as_ bs,
      List.cons.injEq]

end

instance : DecidableEq Term :=
  fun a b => decidable_of_iff (Term.beq a b = true) (Term.beq_iff a b)

/-- The `.name` attribute shared by both Python classes. -/
def Term.nameOf : Term → String
  | .pred n _ => n
  | .var n => n

/-- `VarMap.is_var`: class test `isinstance(value, Var)`. -/
def Term.isVarT : Term → Bool
  | .var _ => true
  | _ => false

/-- `VarMap`: `vardict` maps a variable name to its bound value.  The Python
dict stores `(var, val)` pairs keyed by `var.name`; the `var` component is
redundant (it is the key itself), so only the value is kept here.  Insertion
order is preserved, matching Python dict semantics. -/
structure VarMap where
  vardict : List (String × Term)

instance : DecidableEq VarMap :=
  fun m1 m2 =>
    decidable_of_iff (m1.vardict = m2.vardict) (by cases m1; cases m2; simp)

def VarMap.empty : VarMap := ⟨[]⟩

/-- Dictionary lookup `self.vardict[name]`. -/
def VarMap.lookup (m : VarMap) (x : String) : Option Term :=
  (m.vardict.find? (fun p => p.1 = x)).map (fun p => p.2)

/-- `__contains__`: `var.name in self.vardict`. -/
def VarMap.mem (m : VarMap) (x : String) : Bool :=
  (m.lookup x).isSome

/-- `VarMap.add`: raises `ValueError` (here `Except.error`) if the key is not
a `Var` or a mapping already exists for it; otherwise inserts at the end. -/
def VarMap.add : VarMap → Term → Term → Except String VarMap
  | m, .var name, value =>
    if m.mem name then .error (name ++ " is already in the mapping")
    else .ok ⟨m.vardict ++ [(name, value)]⟩
  | _, .pred _ _, _ => .error "Tried to insert non-var into map"

/-- The `while is_var(val) and val in self` loop of `deep_get`.  The fuel
bounds the number of chain steps; a cyclic chain (on which the Python loop
never exits) exhausts any fuel and yields `none`. -/
def VarMap.chaseVal (m : VarMap) : Nat → Term → Option Term
  | 0, _ => none
  | fuel + 1, val =>
    match val with
    | .var y =>
      match m.lookup y with
      | some val2 => m.chaseVal fuel val2
      | none => some (.var y)
    | t => some t

/-- `deep_get` on a variable name: an absent variable resolves to itself;
otherwise the binding chain is followed to an unbound variable or a
non-variable term.  Fuel `length + 1` completes every acyclic chain, so
`none` is returned exactly when the Python loop diverges. -/
def VarMap.deepGet (m : VarMap) (x : String) : Option Term :=
  match m.lookup x with
  | none => some (.var x)
  | some val => m.chaseVal (m.vardict.length + 1) val

/-- Deref step `if mapping.is_var(t): t = mapping[t]` used on `other` in both
`unify` routines: non-variables pass through untouched. -/
def VarMap.derefIfVar (m : VarMap) (t : Term) : Option Term :=
  match t with
  | .var y => m.deepGet y
  | t => some t

/-- `Predicate.var_within(self, var, mapping)`: is `var` somewhere in this
predicate?  The entry point re-resolves `var` through the mapping (a
`ValueError` crash — `none` — if it is not a `Var`).  Note the source's quirk:
an argument that is syntactically a variable is dereferenced and its `.name`
compared directly, even when it dereferences to a predicate, and such a
dereferenced predicate is not descended into.  The `for a in self.args` loop
becomes a fold that propagates the first `True` (Python returns early) or a
crash.  Recursion is made structural on a fuel bounding the nesting depth,
so any sufficiently large fuel reproduces the Python result exactly. -/
def varWithin : Nat → Term → Term → VarMap → Option Bool
  | 0, _, _, _ => none
  | fuel + 1, .pred _ args, varT, m =>
    match m.derefIfVar varT with
    | none => none
    | some v =>
      match varT with
      | .var _ =>
        args.foldl (fun acc a =>
          match acc with
          | some false =>
            match a with
            | .var y =>
              match m.deepGet y with
              | none => none
              | some a' => if a'.nameOf = v.nameOf then some true else some false
            | .pred n2 args2 => varWithin fuel (.pred n2 args2) v m
          | other => other) (some false)
      | .pred _ _ => none
  | _ + 1, .var _, _, _ => none

/-- `a.unify(b, mapping)` with dynamic dispatch on `a`'s class, returning the
updated mapping.  `none` is a crash or divergence, `some none` is the
ordinary `False` result, `some (some m)` is `True` with the mutated map.
The `izip(self.args, other.args)` loop becomes a left fold that short
circuits by propagating the first failure.  Fuel is consumed at each
dispatch; a terminating Python run is reproduced exactly by all
sufficiently large fuels. -/
def unifyF : Nat → Term → Term → VarMap → Option (Option VarMap)
  | 0, _, _, _ => none
  | fuel + 1, .var x, other, m =>
    -- Var.unify
    match m.deepGet x with
    | none => none
    | some (.pred n args) => unifyF fuel (.pred n args) other m
    | some (.var x') =>
      match m.derefIfVar other with
      | none => none
      | some (.var y) =>
        match m.add (.var x') (.var y) with
        | .error _ => none
        | .ok m' => some (some m')
      | some (.pred n2 args2) =>
        match varWithin fuel (.pred n2 args2) (.var x') m with
        | none => none
        | some true => some none
        | some false =>
          match m.add (.var x') (.pred n2 args2) with
          | .error _ => none
          | .ok m' => some (some m')
  | fuel + 1, .pred n args, other, m =>
    -- Predicate.unify
    match m.derefIfVar other with
    | none => none
    | some (.var y) => unifyF fuel (.var y) (.pred n args) m
    | some (.pred n2 args2) =>
      if n = n2 ∧ args.length = args2.length then
        (args.zip args2).foldl (fun acc p =>
          match acc with
          | some (some m') => unifyF fuel p.1 p.2 m'
          | other2 => other2) (some (some m))
      else some none

/-- `Predicate.standardize_vars(self, factory, mapping)` on the argument
list: each syntactic variable is replaced by `mapping[a]` after (if absent) a
fresh variable `v<counter>` is recorded for it; predicate arguments are
descended into with the same factory and mapping.  The counter models the
global `name_generator('v')`.  Recursion is structural on a fuel bounding
the number of nodes visited (the Python recursion always terminates, so any
sufficiently large fuel reproduces it). -/
def stdArgs : Nat → List Term → Nat → VarMap → Option (List Term × Nat × VarMap)
  | 0, _, _, _ => none
  | _ + 1, [], c, m => some ([], c, m)
  | fuel + 1, .var x :: as_, c, m =>
    let step : Option (Nat × VarMap) :=
      if m.mem x then some (c, m)
      else
        match m.add (.var x) (.var ("v" ++ toString c)) with
        | .error _ => none
        | .ok m' => some (c + 1, m')
    match step with
    | none => none
    | some (c', m') =>
      match m'.deepGet x with
      | none => none
      | some a' =>
        match stdArgs fuel as_ c' m' with
        | none => none
        | some (as', c'', m'') => some (a' :: as', c'', m'')
  | fuel + 1, .pred n args :: as_, c, m =>
    match stdArgs fuel args c m with
    | none => none
    | some (args', c', m') =>
      match stdArgs fuel as_ c' m' with
      | none => none
      | some (as', c'', m'') => some (Term.pred n args' :: as', c'', m'')

/-- `standardize_vars` on a whole term.  The method exists only on
`Predicate`; calling it on a `Var` would be an `AttributeError` (`none`). -/
def standardizeVars (fuel : Nat) : Term → Nat → VarMap → Option (Term × Nat × VarMap)
  | .pred n args, c, m =>
    match stdArgs fuel args c m with
    | none => none
    | some (args', c', m') => some (Term.pred n args', c', m')
  | .var _, _, _ => none

/-- A `Rule` after construction: consequent and antecedents with variables
already standardized apart.  The constructor's transient `self.varmap` (used
only for printing) and the trivial `test`/`commands` hooks are omitted. -/
structure Rule where
  consequent : Term
  antecedents : List Term
deriving DecidableEq

/-- `Rule.__init__`: copy the consequent and antecedents and standardize
their variables with one shared fresh mapping and the (global) counter-based
name factory, whose state is threaded in and out. -/
def stdList (fuel : Nat) : List Term → Nat → VarMap → Option (List Term × Nat × VarMap)
  | [], c, m => some ([], c, m)
  | t :: ts, c, m =>
    match standardizeVars fuel t c m with
    | none => none
    | some (t', c2, m2) =>
      match stdList fuel ts c2 m2 with
      | none => none
      | some (ts', c3, m3) => some (t' :: ts', c3, m3)

def Rule.make (fuel : Nat) (consequent : Term) (antecedents : List Term) (ctr : Nat) :
    Option (Rule × Nat) :=
  match standardizeVars fuel consequent ctr VarMap.empty with
  | none => none
  | some (c', ctr1, m1) =>
    match stdList fuel antecedents ctr1 m1 with
    | none => none
    | some (ants', ctr2, _) => some (⟨c', ants'⟩, ctr2)

/-- The knowledge base: the ordered rule list.  The `rules_dict` index keyed
on consequent name always holds, for each name, exactly the rules with that
consequent name in insertion order, which is recovered here by filtering. -/
structure Prolog where
  rules : List Rule
deriving DecidableEq

/-- The `rules_dict[query.name]` bucket (empty list ⟺ `query.name not in
self.rules_dict`, and both produce no answers). -/
def Prolog.bucket (kb : Prolog) (name : String) : List Rule :=
  kb.rules.filter (fun r => r.consequent.nameOf = name)

/-- `Prolog.answer_iter(queries, varmap)`: all ways to prove the query list,
as a materialized list of `(final map, rules used)` pairs in the order the
Python generator yields them: for each bucket rule in registration order,
clone the map (implicit here — maps are immutable values), unify the query
with the rule's consequent, resolve the antecedents, then for each of their
solutions resolve the remaining queries, emitting
`(finalmap, [rule] + finalrules + antrules)`.  The two `for` nests become
left folds.  `none` models divergence (or a crash) — possible on cyclic rule
sets — and the fuel bounds recursion depth, so any terminating Python run is
reproduced by all sufficiently large fuels. -/
def answerIter : Nat → Prolog → List Term → VarMap → Option (List (VarMap × List Rule))
  | _, _, [], m => some [(m, [])]
  | 0, _, _ :: _, _ => none
  | fuel + 1, kb, q :: rest, m =>
    (kb.bucket q.nameOf).foldl (fun acc r =>
      match acc with
      | none => none
      | some acc' =>
        match unifyF fuel q r.consequent m with
        | none => none
        | some none => some acc'
        | some (some m1) =>
          match answerIter fuel kb r.antecedents m1 with
          | none => none
          | some antResults =>
            match antResults.foldl (fun acc2 p =>
              match acc2 with
              | none => none
              | some acc2' =>
                match answerIter fuel kb rest p.1 with
                | none => none
                | some finals =>
                  some (acc2' ++ finals.map (fun f => (f.1, r :: (f.2 ++ p.2))))) (some []) with
            | none => none
            | some xs => some (acc' ++ xs)) (some [])

/-! ## The pattern matcher (`testunify.py`) -/

/-- `is_var(v)`: `v[0] == '{' and v[-1] == '}'`.  Tokens are never empty
(Python would crash on an empty one; `String.front`/`back` return a default
character there, giving `false`). -/
def isVarS (v : String) : Bool :=
  v.front = '{' && v.back = '}'

/-- One step of the `for c in s_iter` loop of `parse_match_string`, acting on
the state `(result, cur_var, prev_is_closing)`.  A `NameError` becomes
`Except.error`.  Note that `prev_is_closing`, once set, is never reset. -/
def pmsStep : List String × String × Bool → Char → Except String (List String × String × Bool)
  | (result, cur_var, pic), c =>
    if c = '{' then
      if cur_var.isEmpty then .ok (result, String.singleton c, pic)
      else if cur_var.length = 1 then .ok (result ++ [String.singleton c], "", pic)
      else .error (cur_var ++ "\x7b is not a valid variable name")
    else if c = '}' then
      if ¬ cur_var.isEmpty then .ok (result ++ [cur_var.push c], "", pic)
      else if ¬ pic then .ok (result ++ [String.singleton c], "", true)
      else .ok (result, cur_var, pic)
    else
      if ¬ cur_var.isEmpty then .ok (result, cur_var.push c, pic)
      else .ok (result ++ [String.singleton c], cur_var, pic)

/-- `parse_match_string(s)`: tokenize a pattern into literal characters and
`\x7bname\x7d` variable tokens; a trailing unterminated variable raises
`ValueError` (`Except.error`). -/
def parse_match_string (s : String) : Except String (List String) :=
  match s.toList.foldlM pmsStep ([], "", false) with
  | .error e => .error e
  | .ok (result, cur_var, _) =>
    if cur_var.isEmpty then .ok result
    else .error ("Unterminated variable name " ++ cur_var)

/-- One cell of the alignment matrix: a match-type tag and a path count. -/
structure PathInfo where
  type : Char
  paths : Nat
deriving DecidableEq, Repr

/-- Membership test `t in 'r*'`. -/
def inRS (t : Char) : Bool := t = 'r' || t = '*'

/-- Membership test `t in 'c*'`. -/
def inCS (t : Char) : Bool := t = 'c' || t = '*'

/-- The body of the double loop in `MatchMatrix.__init__` computing one cell
from its diagonal, upper and left neighbors (absent at the borders).  The
final `if info.paths == 0: info.type = '-'` normalization is skipped by the
`continue` of the constant-match branch, exactly as in the source. -/
def mkCell (row col : Nat) (rval cval : String)
    (diag up left : Option PathInfo) : PathInfo :=
  let diag_source : Nat :=
    if row = 0 ∧ col = 0 then 1
    else if 0 < row ∧ 0 < col then ((diag.map PathInfo.paths).getD 0)
    else 0
  if ¬ isVarS rval ∧ ¬ isVarS cval ∧ rval = cval then
    ⟨'.', diag_source⟩
  else
    let leftC := left.getD ⟨'-', 0⟩
    let upC := up.getD ⟨'-', 0⟩
    let rvar_source : Nat :=
      if isVarS rval ∧ 0 < col ∧ inRS leftC.type then leftC.paths else 0
    let cvar_source : Nat :=
      if isVarS cval ∧ 0 < row ∧ inCS upC.type then upC.paths else 0
    let info : PathInfo :=
      if isVarS rval ∧ isVarS cval then
        if row = 0 ∧ col = 0 then ⟨'*', 1⟩
        else if rvar_source ≠ 0 ∧ cvar_source ≠ 0 then
          ⟨'*', diag_source + rvar_source + cvar_source⟩
        else if rvar_source ≠ 0 then ⟨'r', diag_source + rvar_source⟩
        else if cvar_source ≠ 0 then ⟨'c', diag_source + cvar_source⟩
        else ⟨'-', 0⟩
      else if isVarS rval then
        ⟨'r', if row = 0 ∧ col = 0 then 1 else diag_source + rvar_source⟩
      else if isVarS cval then
        ⟨'c', if row = 0 ∧ col = 0 then 1 else diag_source + cvar_source⟩
      else ⟨'-', 0⟩
    if info.paths = 0 then ⟨'-', 0⟩ else info

/-- Build one matrix row left to right; `diag` is the previous row's cell at
`colIdx - 1` and `prevRest` the previous row from `colIdx` on (so its head is
the upper neighbor). -/
def buildRowAux (rowIdx : Nat) (rval : String) :
    Nat → Option PathInfo → Option PathInfo → List PathInfo → List String → List PathInfo
  | _, _, _, _, [] => []
  | colIdx, left, diag, prevRest, cval :: cs =>
    let cell := mkCell rowIdx colIdx rval cval diag prevRest.head? left
    cell :: buildRowAux rowIdx rval (colIdx + 1) (some cell) prevRest.head? prevRest.tail cs

/-- Build the matrix rows top to bottom. -/
def buildRowsAux : Nat → List PathInfo → List String → List String → List (List PathInfo)
  | _, _, [], _ => []
  | rowIdx, prevRow, rval :: rs, ps2 =>
    let row := buildRowAux rowIdx rval 0 none none prevRow ps2
    row :: buildRowsAux (rowIdx + 1) row rs ps2

/-- The full `R × C` alignment matrix of `MatchMatrix.__init__`. -/
def buildMatrix (ps1 ps2 : List String) : List (List PathInfo) :=
  buildRowsAux 0 [] ps1 ps2

/-- `self[row, col]` (out-of-range cells, never consulted by the algorithm
on well-formed input, read as dead cells). -/
def cellAt (M : List (List PathInfo)) (r c : Nat) : PathInfo :=
  (M.getD r []).getD c ⟨'-', 0⟩

/-- The backward walk of `MatchMatrix.paths`: all admissible paths from the
origin to `(r, c)`, positions listed forward.  The fuel dominates `r + c`,
which strictly decreases, so `numRows + numCols` is always enough. -/
def pathsFrom (M : List (List PathInfo)) : Nat → Nat → Nat → List (List (Nat × Nat))
  | 0, _, _ => []
  | fuel + 1, r, c =>
    if r = 0 ∧ c = 0 then [[(0, 0)]]
    else
      let info := cellAt M r c
      let pres : List (Nat × Nat) :=
        (if 0 < r ∧ 0 < c ∧ 0 < (cellAt M (r - 1) (c - 1)).paths then
          [(r - 1, c - 1)] else []) ++
        (if inRS info.type ∧ 0 < c ∧ inRS (cellAt M r (c - 1)).type then
          [(r, c - 1)] else []) ++
        (if inCS info.type ∧ 0 < r ∧ inCS (cellAt M (r - 1) c).type then
          [(r - 1, c)] else [])
      (pres.map (fun p =>
        (pathsFrom M fuel p.1 p.2).map (fun path => path ++ [(r, c)]))).flatten

/-- `MatchMatrix.paths()` from the bottom-right cell: nothing if that cell is
unreachable. -/
def pathsAll (M : List (List PathInfo)) (numRows numCols : Nat) : List (List (Nat × Nat)) :=
  if (cellAt M (numRows - 1) (numCols - 1)).paths = 0 then []
  else pathsFrom M (numRows + numCols) (numRows - 1) (numCols - 1)

/-- Sideways move in `MatchMatrix.maps`: extend the most recent group with a
token — appended as a separate entry when a variable is involved at the
boundary, concatenated onto the last constant run otherwise.  `none` is the
`IndexError` Python would raise on an empty map (never reached on paths the
matrix itself produced). -/
def stepGroup (gs : List (List String)) (tok : String) : Option (List (List String)) :=
  match gs.getLast? with
  | none => none
  | some g =>
    match g.getLast? with
    | none => none
    | some lastEl =>
      if isVarS lastEl ∨ isVarS tok then some (gs.dropLast ++ [g ++ [tok]])
      else some (gs.dropLast ++ [g.dropLast ++ [lastEl ++ tok]])

/-- The per-path loop body of `MatchMatrix.maps`: same-row moves absorb the
column token, same-column moves absorb the row token, and diagonal moves
open a new group according to the cell type (for `*` cells the choice is
made by looking at the next step, or treating the path end as a row
variable). -/
def mapsOfPathAux (ps1 ps2 : List String) (M : List (List PathInfo)) :
    Option (Nat × Nat) → List (Nat × Nat) → List (List String) →
    Option (List (List String))
  | _, [], gs => some gs
  | prev, (r, c) :: restPath, gs =>
    let isRow : Bool := match prev with | some p => r == p.1 | none => false
    let isCol : Bool := match prev with | some p => c == p.2 | none => false
    if isRow then
      match stepGroup gs (ps2.getD c "") with
      | none => none
      | some gs' => mapsOfPathAux ps1 ps2 M (some (r, c)) restPath gs'
    else if isCol then
      match stepGroup gs (ps1.getD r "") with
      | none => none
      | some gs' => mapsOfPathAux ps1 ps2 M (some (r, c)) restPath gs'
    else
      let info := cellAt M r c
      let gs' :=
        if info.type = 'r' then gs ++ [[ps1.getD r "", ps2.getD c ""]]
        else if info.type = 'c' then gs ++ [[ps2.getD c "", ps1.getD r ""]]
        else if info.type = '*' then
          match restPath.head? with
          | none => gs ++ [[ps1.getD r "", ps2.getD c ""]]
          | some fut =>
            if fut.2 = c then gs ++ [[ps2.getD c "", ps1.getD r ""]]
            else gs ++ [[ps1.getD r "", ps2.getD c ""]]
        else gs
      mapsOfPathAux ps1 ps2 M (some (r, c)) restPath gs'

/-- The variable-binding map built from one path. -/
def mapsOfPath (ps1 ps2 : List String) (M : List (List PathInfo))
    (path : List (Nat × Nat)) : Option (List (List String)) :=
  mapsOfPathAux ps1 ps2 M none path []

/-- `MatchMatrix.maps()`: one binding map per admissible path, in generator
order. -/
def mapsAll (ps1 ps2 : List String) (M : List (List PathInfo))
    (numRows numCols : Nat) : Option (List (List (List String))) :=
  (pathsAll M numRows numCols).mapM (mapsOfPath ps1 ps2 M)

/-- The standalone alignment entry point: tokenize both patterns, build the
matrix and enumerate every alignment's binding map.  `none` models a parse
error or a crash (`MatchMatrix` crashes when either token list is empty). -/
def alignMaps (s1 s2 : String) : Option (List (List (List String))) :=
  match parse_match_string s1, parse_match_string s2 with
  | .ok ps1, .ok ps2 =>
    if ps1.isEmpty ∨ ps2.isEmpty then none
    else mapsAll ps1 ps2 (buildMatrix ps1 ps2) ps1.length ps2.length
  | _, _ => none

/-- The binding of variable `v` in a map: the tail of the first group whose
head is `v`. -/
def lookupGroup (gs : List (List String)) (v : String) : Option (List String) :=
  (gs.find? (fun g => g.head? = some v)).map (fun g => g.drop 1)

/-- Substitute a binding map into a token sequence: every variable token
bound by the map is replaced by the concatenation of its absorbed tokens,
every other token stands for itself; the results are concatenated. -/
def substTokens (gs : List (List String)) (ps : List String) : String :=
  String.join (ps.map (fun t =>
    if isVarS t then
      match lookupGroup gs t with
      | some vals => String.join vals
      | none => t
    else t))

/-! ## Theorems -/

/-- Appending a binding for a name absent from an association list makes
`find?` on that name return it. -/
theorem findAppendSelf (x : String) (v : Term) : ∀ l : List (String × Term),
    l.find? (fun p => p.1 = x) = none →
    (l ++ [(x, v)]).find? (fun p => p.1 = x) = some (x, v)
  | [], _ => by simp
  | p :: l, h => by
    by_cases hp : p.1 = x
    · rw [List.find?_cons_of_pos _ (by simpa using hp)] at h; cases h
    · rw [List.find?_cons_of_neg _ (by simpa using hp)] at h
      rw [List.cons_append, List.find?_cons_of_neg _ (by simpa using hp)]
      exact findAppendSelf x v l h

/-- Looking up a name that was just appended to a map in which it was absent
finds the appended binding. -/
theorem VarMap.lookup_append_self (m : VarMap) (x : String) (v : Term)
    (h : m.lookup x = none) :
    (VarMap.mk (m.vardict ++ [(x, v)])).lookup x = some v := by
  unfold VarMap.lookup at h ⊢
  rw [findAppendSelf x v m.vardict (by
    cases hf : m.vardict.find? (fun p => p.1 = x) with
    | none => rfl
    | some q => rw [hf] at h; cases h)]
  rfl

/-- C4: once a binding for a variable has been added to a `VarMap`, adding a
second binding for the same variable (without an intervening clone) raises
the distinct binding-conflict `ValueError` — it neither overwrites silently
nor reports an ordinary unification failure. -/
theorem c4_add_conflict (m m' : VarMap) (x : String) (v1 v2 : Term)
    (h : m.add (.var x) v1 = .ok m') :
    m'.add (.var x) v2 = .error (x ++ " is already in the mapping") := by
  simp only [VarMap.add] at h ⊢
  by_cases hmem : m.mem x = true
  · rw [if_pos hmem] at h; cases h
  · rw [if_neg hmem] at h
    injection h with h
    have hnone : m.lookup x = none := by
      unfold VarMap.mem at hmem
      exact Option.not_isSome_iff_eq_none.mp hmem
    have hlk : m'.mem x = true := by
      subst h
      unfold VarMap.mem
      rw [VarMap.lookup_append_self m x v1 hnone]
      rfl
    simp [hlk]

/-- C4 witness: adding `X ↦ a` to the empty map succeeds, and adding a
second binding `X ↦ b` to the result raises the binding-conflict error. -/
theorem c4_add_conflict_witness :
    (VarMap.mk [("X", Term.pred "a" [])]).add (.var "X") (.pred "b" []) =
      .error ("X" ++ " is already in the mapping") :=
  c4_add_conflict VarMap.empty _ "X" (.pred "a" []) (.pred "b" []) rfl

/-- C9: resolving the empty query list under any substitution yields exactly
the single vacuous success `(s, [])`, whatever the fuel and knowledge base. -/
theorem c9_empty_query (fuel : Nat) (kb : Prolog) (s : VarMap) :
    answerIter fuel kb [] s = some [(s, [])] := by
  cases fuel <;> rfl

/-- C2: unifying an unbound variable `X` with the one-argument atom `f(X)`
fails by the occurs-check, as an ordinary `False` (`some none`), for every
functor name `f`, every mapping in which `X` is unbound, and every
sufficient fuel. -/
theorem c2_occurs_check (fuel : Nat) (f x : String) (m : VarMap)
    (h : m.lookup x = none) :
    unifyF (fuel + 2) (.var x) (.pred f [.var x]) m = some none := by
  have hdg : m.deepGet x = some (.var x) := by unfold VarMap.deepGet; rw [h]
  show unifyF (fuel + 1 + 1) (.var x) (.pred f [.var x]) m = some none
  unfold unifyF
  rw [hdg]
  show (match m.derefIfVar (.pred f [.var x]) with
    | none => none
    | some (.var y) =>
      match m.add (.var x) (.var y) with
      | .error _ => none
      | .ok m' => some (some m')
    | some (.pred n2 args2) =>
      match varWithin (fuel + 1) (.pred n2 args2) (.var x) m with
      | none => none
      | some true => some none
      | some false =>
        match m.add (.var x) (.pred n2 args2) with
        | .error _ => none
        | .ok m' => some (some m') : Option (Option VarMap)) = some none
  have hvw : varWithin (fuel + 1) (.pred f [.var x]) (.var x) m = some true := by
    unfold varWithin
    simp [VarMap.derefIfVar, hdg, Term.nameOf]
  simp [VarMap.derefIfVar, hvw]

/-- C2 witness: with the empty substitution, `X` does not unify with
`f(X)`. -/
theorem c2_occurs_check_witness :
    unifyF 2 (.var "X") (.pred "f" [.var "X"]) VarMap.empty = some none :=
  c2_occurs_check 0 "f" "X" VarMap.empty rfl

/-! ### C1: the concrete build-chain scenario -/

def c1Tmpl1C : Term := .pred "buildable" [.pred "file" [.var "Base", .pred ".o" []]]
def c1Tmpl1A : Term := .pred "buildable" [.pred "file" [.var "Base", .pred ".c" []]]
def c1Tmpl2C : Term := .pred "buildable" [.pred "file" [.var "Base", .pred ".c" []]]
def c1Tmpl2A : Term := .pred "exists" [.pred "file" [.var "Base", .pred ".y" []]]
def c1TmplF : Term := .pred "exists" [.pred "file" [.pred "myfile" [], .pred ".y" []]]

/-- Rule 1 after construction: its `Base` is standardized to `v0`. -/
def c1Rule1 : Rule :=
  ⟨.pred "buildable" [.pred "file" [.var "v0", .pred ".o" []]],
    [.pred "buildable" [.pred "file" [.var "v0", .pred ".c" []]]]⟩

/-- Rule 2 after construction: its `Base` is standardized to `v1`. -/
def c1Rule2 : Rule :=
  ⟨.pred "buildable" [.pred "file" [.var "v1", .pred ".c" []]],
    [.pred "exists" [.pred "file" [.var "v1", .pred ".y" []]]]⟩

/-- The ground fact `exists(file("myfile", ".y"))`. -/
def c1Fact : Rule :=
  ⟨.pred "exists" [.pred "file" [.pred "myfile" [], .pred ".y" []]], []⟩

def c1KB : Prolog := ⟨[c1Rule1, c1Rule2, c1Fact]⟩

def c1Query : Term := .pred "buildable" [.pred "file" [.pred "myfile" [], .pred ".o" []]]

def c1Final : VarMap := ⟨[("v0", .pred "myfile" []), ("v1", .pred "myfile" [])]⟩

/-- C1: building the three-clause knowledge base standardizes the two rules'
`Base` variables apart (to `v0` and `v1`); resolving
`buildable(file("myfile", ".o"))` yields exactly one proof, whose rules-used
list holds both rules and the fact, and whose final substitution binds each
rule's `Base` variable to the atom `myfile`. -/
theorem c1_build_chain :
    Rule.make 50 c1Tmpl1C [c1Tmpl1A] 0 = some (c1Rule1, 1) ∧
    Rule.make 50 c1Tmpl2C [c1Tmpl2A] 1 = some (c1Rule2, 2) ∧
    Rule.make 50 c1TmplF [] 2 = some (c1Fact, 2) ∧
    answerIter 30 c1KB [c1Query] VarMap.empty =
      some [(c1Final, [c1Rule1, c1Rule2, c1Fact])] ∧
    c1Final.deepGet "v0" = some (.pred "myfile" []) ∧
    c1Final.deepGet "v1" = some (.pred "myfile" []) :=
  ⟨rfl, rfl, rfl, rfl, rfl, rfl⟩

/-! ### C5: a variable-variable cell reachable only diagonally is left dead -/

/-- C5 (code bug): in the matrix for `"a\x7bx\x7d"` vs `"a\x7by\x7d"`, the
cell `(1,1)` pairs the two variable tokens and its diagonal predecessor
`(0,0)` is reachable (1 path), yet the code marks it dead (`'-'`, 0 paths)
instead of ambiguous (`'*'`) inheriting the diagonal, because the
variable-variable branch has no case for "diagonal only"; consequently the
whole match yields no alignments. -/
theorem c5_var_var_cell_dead :
    parse_match_string "a\x7bx\x7d" = .ok ["a", "\x7bx\x7d"] ∧
    parse_match_string "a\x7by\x7d" = .ok ["a", "\x7by\x7d"] ∧
    isVarS "\x7bx\x7d" = true ∧
    isVarS "\x7by\x7d" = true ∧
    cellAt (buildMatrix ["a", "\x7bx\x7d"] ["a", "\x7by\x7d"]) 0 0 = ⟨'.', 1⟩ ∧
    cellAt (buildMatrix ["a", "\x7bx\x7d"] ["a", "\x7by\x7d"]) 1 1 = ⟨'-', 0⟩ ∧
    alignMaps "a\x7bx\x7d" "a\x7by\x7d" = some [] :=
  ⟨rfl, rfl, rfl, rfl, rfl, rfl, rfl⟩

/-! ### C7: the second doubled-brace escape is dropped -/

/-- C7 (code bug): `\x7b\x7b` escapes work repeatedly, and a single
`\x7d\x7d` produces one literal token, but in `"\x7d\x7da\x7d\x7d"` the
second `\x7d\x7d` produces no token at all (the `prev_is_closing` flag is
never reset), so the output is `["\x7d", "a"]` instead of the
`["\x7d", "a", "\x7d"]` the claim requires. -/
theorem c7_second_closing_escape_dropped :
    parse_match_string "\x7b\x7ba\x7b\x7b" = .ok ["\x7b", "a", "\x7b"] ∧
    parse_match_string "\x7d\x7d" = .ok ["\x7d"] ∧
    parse_match_string "\x7d\x7da\x7d\x7d" = .ok ["\x7d", "a"] :=
  ⟨rfl, rfl, rfl⟩

/-! ### C8: unification outcome is not symmetric -/

def c8A : Term := .pred "p" [.var "X", .var "Z", .var "X"]

def c8B : Term := .pred "p" [.var "Y", .pred "X" [], .pred "f" [.var "Z"]]

/-- C8 (code bug): `p(X, Z, X)` unifies with `p(Y, "X", f(Z))` under the
empty substitution (binding `X → Y`, `Z → "X"`, `Y → f(Z)`), but the same
pair in the other order fails: after `Y → X` and `Z → "X"`, the occurs check
`var_within` dereferences the argument `Z` of `f(Z)` to the atom named `X`
and compares that name with the name of the variable being bound — which in
this direction is `X` itself — and wrongly reports an occurrence.  The
fuel 50 is far beyond what either (terminating) run consumes. -/
theorem c8_unify_outcome_asymmetric :
    unifyF 50 c8A c8B VarMap.empty =
      some (some ⟨[("X", .var "Y"), ("Z", .pred "X" []),
        ("Y", .pred "f" [.var "Z"])]⟩) ∧
    unifyF 50 c8B c8A VarMap.empty = some none :=
  ⟨rfl, rfl⟩

/-! ### C3: an emitted alignment that does not reconstruct the patterns -/

/-- The fourth map emitted for `"\x7bx\x7da\x7by\x7d"` vs
`"\x7bu\x7da\x7bw\x7da"`. -/
def c3BadMap : List (List String) :=
  [["\x7bx\x7d", "\x7bu\x7d", "a"], ["\x7bw\x7d", "a", "\x7by\x7d", "a"]]

/-- C3 (code bug): aligning `"\x7bx\x7da\x7by\x7d"` with
`"\x7bu\x7da\x7bw\x7da"` emits four maps, the last of which absorbs the
second pattern's own final literal `a` into the binding of the second
pattern's variable `\x7bw\x7d` (the path enters the variable-variable cell
sideways and leaves sideways in the other direction, so `maps()` keeps
appending to the previous group).  Substituting that map back into the two
patterns yields different strings — a character is duplicated — violating
the round-trip invariant. -/
theorem c3_alignment_not_reconstructing :
    parse_match_string "\x7bx\x7da\x7by\x7d" =
      .ok ["\x7bx\x7d", "a", "\x7by\x7d"] ∧
    parse_match_string "\x7bu\x7da\x7bw\x7da" =
      .ok ["\x7bu\x7d", "a", "\x7bw\x7d", "a"] ∧
    alignMaps "\x7bx\x7da\x7by\x7d" "\x7bu\x7da\x7bw\x7da" =
      some [[["\x7bx\x7d", "\x7bu\x7d", "a"], ["\x7bw\x7d", "a"], ["\x7by\x7d", "a"]],
        [["\x7bx\x7d", "\x7bu\x7d"], ["\x7by\x7d", "\x7bw\x7d", "a"]],
        [["\x7bu\x7d", "\x7bx\x7d", "a"], ["\x7by\x7d", "a", "\x7bw\x7d", "a"]],
        c3BadMap] ∧
    substTokens c3BadMap ["\x7bx\x7d", "a", "\x7by\x7d"] = "\x7bu\x7daa\x7by\x7d" ∧
    substTokens c3BadMap ["\x7bu\x7d", "a", "\x7bw\x7d", "a"] =
      "\x7bu\x7daa\x7by\x7daa" ∧
    ("\x7bu\x7daa\x7by\x7d" : String) ≠ "\x7bu\x7daa\x7by\x7daa" :=
  ⟨rfl, rfl, rfl, rfl, rfl, by decide⟩

/-! ### C6: a lone closing brace is not a tokenization error -/

/-- C6 counterexample: `"a\x7db"` contains an unescaped lone `\x7d`, yet
tokenization succeeds (producing a literal `\x7d` token) instead of failing
with a parse error. -/
theorem c6_counterexample_lone_closing_ok :
    parse_match_string "a\x7db" = .ok ["a", "\x7d", "b"] := rfl

/-- Processing characters none of which is `\x7b` can never start a
variable, so the tokenizer state keeps an empty `cur_var` and always
succeeds. -/
theorem pms_no_open_ok : ∀ (l : List Char) (res : List String) (pic : Bool),
    (∀ c ∈ l, c ≠ '\x7b') →
    ∃ res' pic', l.foldlM pmsStep (res, "", pic) = Except.ok (res', "", pic')
  | [], res, pic, _ => ⟨res, pic, rfl⟩
  | c :: l, res, pic, h => by
    have hc : ¬ (c = '\x7b') := h c (by simp)
    have hrest : ∀ c' ∈ l, c' ≠ '\x7b' := fun c' hm => h c' (by simp [hm])
    have hstep : ∃ res2 pic2, pmsStep (res, "", pic) c = .ok (res2, "", pic2) := by
      simp only [pmsStep]
      rw [if_neg hc]
      by_cases hcc : c = '\x7d'
      · rw [if_pos hcc]
        rw [if_neg (by decide)]
        by_cases hpic : pic = true
        · rw [if_neg (by simp [hpic])]
          exact ⟨res, pic, rfl⟩
        · rw [if_pos (by simp [hpic])]
          exact ⟨res ++ [String.singleton c], true, rfl⟩
      · rw [if_neg hcc, if_neg (by decide)]
        exact ⟨res ++ [String.singleton c], pic, rfl⟩
    obtain ⟨res2, pic2, hstep⟩ := hstep
    rw [List.foldlM_cons, hstep]
    have hih := pms_no_open_ok l res2 pic2 hrest
    obtain ⟨res', pic', hih⟩ := hih
    exact ⟨res', pic', by
      show (l.foldlM pmsStep (res2, "", pic2)) = _
      exact hih⟩

/-- C6 amended: an unescaped lone `\x7d` is not a parse error — every
pattern string containing no `\x7b` at all tokenizes successfully, the first
stray `\x7d` being emitted as a literal token (as the accompanying
counterexample `"a\x7db" ↦ ["a", "\x7d", "b"]` shows); tokenization fails
only on variables left unterminated or malformed by a `\x7b`. -/
theorem c6_amended_lone_closing_not_error :
    ∀ s : String, (∀ c ∈ s.data, c ≠ '\x7b') →
    ∃ ts, parse_match_string s = .ok ts := by
  intro s h
  obtain ⟨res', pic', heq⟩ := pms_no_open_ok s.data [] false h
  refine ⟨res', ?_⟩
  unfold parse_match_string
  rw [show s.toList = s.data from rfl, heq]
  rfl

/-- C6 witness: the amended statement applied to the concrete pattern
`"a\x7db"`. -/
theorem c6_amended_witness : ∃ ts, parse_match_string "a\x7db" = .ok ts :=
  c6_amended_lone_closing_not_error "a\x7db" (by decide)

/-! ### C10: variables never absorb the empty string -/

/-- A sideways move preserves the invariant that every group has a key and
at least one absorbed token (length at least 2): it either appends a token
to the last group or concatenates onto its last constant, never shrinking a
group below its creation size. -/
theorem stepGroup_two_le (gs gs' : List (List String)) (tok : String)
    (h : stepGroup gs tok = some gs') (hinv : ∀ g ∈ gs, 2 ≤ g.length) :
    ∀ g ∈ gs', 2 ≤ g.length := by
  unfold stepGroup at h
  split at h
  · cases h
  next g0 hl =>
    split at h
    · cases h
    next lastEl hg =>
      have hg0mem : g0 ∈ gs := by
        obtain ⟨hne, heq⟩ := List.mem_getLast?_eq_getLast (l := gs) (x := g0) hl
        rw [heq]
        exact List.getLast_mem hne
      have hlen : 2 ≤ g0.length := hinv g0 hg0mem
      split at h
      · injection h with h
        subst h
        intro g hgmem
        rcases List.mem_append.mp hgmem with hmem | hmem
        · exact hinv g (List.mem_of_mem_dropLast hmem)
        · rw [List.mem_singleton.mp hmem]
          rw [List.length_append]
          omega
      · injection h with h
        subst h
        intro g hgmem
        rcases List.mem_append.mp hgmem with hmem | hmem
        · exact hinv g (List.mem_of_mem_dropLast hmem)
        · rw [List.mem_singleton.mp hmem]
          rw [List.length_append, List.length_dropLast]
          simp only [List.length_cons, List.length_nil]
          omega

/-- `maps()` only ever creates groups of size two and grows them, so every
group of every emitted map keeps a key plus at least one value. -/
theorem mapsOfPathAux_two_le (ps1 ps2 : List String) (M : List (List PathInfo)) :
    ∀ (path : List (Nat × Nat)) (prev : Option (Nat × Nat))
      (gs0 gs : List (List String)),
    (∀ g ∈ gs0, 2 ≤ g.length) →
    mapsOfPathAux ps1 ps2 M prev path gs0 = some gs →
    ∀ g ∈ gs, 2 ≤ g.length
  | [], prev, gs0, gs, hinv, h => by
    unfold mapsOfPathAux at h
    injection h with h
    subst h
    exact hinv
  | (r, c) :: restPath, prev, gs0, gs, hinv, h => by
    have hnew : ∀ (a b : String) (gs1 : List (List String)),
        (∀ g ∈ gs1, 2 ≤ g.length) → ∀ g ∈ gs1 ++ [[a, b]], 2 ≤ g.length := by
      intro a b gs1 hinv1 g hmem'
      rcases List.mem_append.mp hmem' with hmem' | hmem'
      · exact hinv1 g hmem'
      · rw [List.mem_singleton.mp hmem']
        simp
    simp only [mapsOfPathAux] at h
    split at h
    · -- same-row move
      cases hsg : stepGroup gs0 (ps2.getD c "") with
      | none => rw [hsg] at h; cases h
      | some gs1 =>
        rw [hsg] at h
        exact mapsOfPathAux_two_le ps1 ps2 M restPath (some (r, c)) gs1 gs
          (stepGroup_two_le gs0 gs1 _ hsg hinv) h
    · split at h
      · -- same-column move
        cases hsg : stepGroup gs0 (ps1.getD r "") with
        | none => rw [hsg] at h; cases h
        | some gs1 =>
          rw [hsg] at h
          exact mapsOfPathAux_two_le ps1 ps2 M restPath (some (r, c)) gs1 gs
            (stepGroup_two_le gs0 gs1 _ hsg hinv) h
      · -- diagonal move
        refine mapsOfPathAux_two_le ps1 ps2 M restPath (some (r, c)) _ gs ?_ h
        split
        · exact hnew _ _ gs0 hinv
        · split
          · exact hnew _ _ gs0 hinv
          · split
            · split
              · exact hnew _ _ gs0 hinv
              · split
                · exact hnew _ _ gs0 hinv
                · exact hnew _ _ gs0 hinv
            · exact hinv

/-- C10: variables never absorb the empty string.  Concretely,
`align("\x7ba\x7d\x7bb\x7d", "x")` yields no alignment at all (there is no
way to give both variables a nonempty piece of `"x"`); and in general every
group of every map the matcher emits consists of a variable key plus at
least one absorbed token. -/
theorem c10_no_empty_absorption :
    alignMaps "\x7ba\x7d\x7bb\x7d" "x" = some [] ∧
    (∀ (ps1 ps2 : List String) (M : List (List PathInfo))
      (path : List (Nat × Nat)) (gs : List (List String)),
      mapsOfPath ps1 ps2 M path = some gs → ∀ g ∈ gs, 2 ≤ g.length) :=
  ⟨rfl, fun ps1 ps2 M path gs h =>
    mapsOfPathAux_two_le ps1 ps2 M path none [] gs (by simp) h⟩

/-- C10 witness: the single alignment of `"\x7bb\x7d"` with `"b"` binds the
variable to one token. -/
theorem c10_witness :
    ∀ g ∈ [["\x7bb\x7d", "b"]], 2 ≤ g.length :=
  c10_no_empty_absorption.2 ["\x7bb\x7d"] ["b"]
    (buildMatrix ["\x7bb\x7d"] ["b"]) [(0, 0)] [["\x7bb\x7d", "b"]] rfl
